import Mathlib

/-!
Verification of the reconciliation / idempotency / resilient-enrichment core of
the `rs-arxiv-batch` repository, by a shallow embedding of its Rust sources
(`utils.rs`, `collector.rs`, `cache.rs`, `ai.rs`, `common.rs`, `reporter.rs`)
into Lean.

Modelling conventions:
* Rust `String` / `&str` values are modelled as `List Char` (`Str` below);
  `str::to_lowercase` is modelled character-wise by `Char.toLower`.
* `f64` arithmetic in the similarity scorer is modelled over `ℚ`.  The only
  operations performed are exact on the values at issue (`0/len`, `1/(1+d)`),
  except the IEEE special case `0.0/0.0 = NaN`, which is modelled by `Option ℚ`
  with `none` playing the role of `NaN` (any comparison with `none` is false,
  as for NaN).
* Rust panics (`assert!`, `unwrap()` on `None`) are modelled by explicit
  `panic`-labelled constructors of result types; `?`-propagated `Result`
  errors by `err`-labelled constructors.
* External effects (metadata-source queries, the generative-model endpoint,
  the destination store, the file system, `chrono` date parsing) are passed
  in explicitly as values/oracles, so every function is pure and executable.
-/

/-- Rust `String` modelled as its list of Unicode code points. -/
abbrev Str := List Char

/-- Embedding of a Lean string literal into the `Str` model. -/
def strOf (s : String) : Str := s.data

/-- Rust `str::to_lowercase`, modelled character-wise. -/
def toLowerStr (s : Str) : Str := s.map Char.toLower

/-- Rust `String::replace("\n", " ")` (used on titles in `collector.rs`). -/
def replaceNL (s : Str) : Str := s.map (fun c => if c = '\n' then ' ' else c)

/- ----------------------------------------------------------------------
`utils.rs`: the Similarity Matcher.
`levenshtein_dist` in the source fills the classic DP matrix with
`matrix[i+1][j+1] = min(matrix[i][j+1] + 1, min(matrix[i+1][j] + 1, matrix[i][j] + cost))`
and borders `matrix[i][0] = i`, `matrix[0][j] = j`; the definition below is
that recurrence, read structurally on the two lists.
---------------------------------------------------------------------- -/

/-- `utils.rs::levenshtein_dist`: classic edit distance (insert/delete cost 1,
substitution cost `if c1 == c2 { 0 } else { 1 }`) over code points. -/
def levenshtein_dist : Str → Str → Nat
  | [], s2 => s2.length
  | _ :: s1, [] => s1.length + 1
  | c1 :: s1, c2 :: s2 =>
      min (levenshtein_dist s1 (c2 :: s2) + 1)
        (min (levenshtein_dist (c1 :: s1) s2 + 1)
          (levenshtein_dist s1 s2 + (if c1 = c2 then 0 else 1)))
termination_by s1 s2 => s1.length + s2.length
decreasing_by all_goals simp_arith

/-- `utils.rs::levenshtein_dist_normalized`: `dist / max_len` over `f64`.
When both strings are empty this is IEEE `0.0/0.0 = NaN`, modelled as `none`. -/
def levenshtein_dist_normalized (s1 s2 : Str) : Option ℚ :=
  if max s1.length s2.length = 0 then none
  else some ((levenshtein_dist s1 s2 : ℚ) / (max s1.length s2.length : ℚ))

/-- `utils.rs::levenshtein_similarity`: `1.0 / (1.0 + normalized_distance)`;
`NaN` propagates (`1.0/(1.0+NaN) = NaN`). -/
def levenshtein_similarity (s1 s2 : Str) : Option ℚ :=
  (levenshtein_dist_normalized s1 s2).map (fun d => 1 / (1 + d))

/- ----------------------------------------------------------------------
`common.rs`: the data model.
---------------------------------------------------------------------- -/

/-- `common.rs::Author`. -/
structure Author where
  page_id : Str
  ss_id : Str
  name : Str
  url : Str
  affiliations : List Str
  paper_count : Nat
  citation_count : Nat
  h_index : Nat
deriving DecidableEq, Repr

/-- `impl Default for Author` in `common.rs`. -/
def Author.default : Author :=
  { page_id := [], ss_id := [], name := strOf "John Doe", url := [],
    affiliations := [], paper_count := 0, citation_count := 0, h_index := 0 }

/-- `common.rs::Summary`: the fixed-shape structured output of the extractor. -/
structure Summary where
  is_survey : Bool
  overview : Str
  research_question : Str
  task_category : Str
  task_as_words : Str
  comparison_with_related_works : Str
  proposed_method : Str
  datasets : Str
  domain_as_words : Str
  experiments : Str
  analysis : Str
  contributions : Str
  future_works : Str
deriving DecidableEq, Repr

/-- `#[derive(Default)]` for `Summary`. -/
def Summary.default : Summary :=
  { is_survey := false, overview := [], research_question := [], task_category := [],
    task_as_words := [], comparison_with_related_works := [], proposed_method := [],
    datasets := [], domain_as_words := [], experiments := [], analysis := [],
    contributions := [], future_works := [] }

/-- `rsrpp::parser::structs::Section`, with the fields `common.rs` reads
(title, ordered paragraph contents, position index). -/
structure Section where
  title : Str
  contents : List Str
  index : Nat
deriving DecidableEq, Repr

/-- `keywords::rsc::Keyword`, with the fields the repository reads
(`alias`, `score`). -/
structure Keyword where
  «alias» : Str
  score : Int
deriving DecidableEq, Repr

/-- `chrono::DateTime<Utc>` modelled as a Unix timestamp. -/
abbrev DateTimeUtc := Int

/-- `utils.rs::default_datetime`: the epoch `1970-01-01 00:00:00+0000`. -/
def default_datetime : DateTimeUtc := 0

/-- `common.rs::Paper`: the canonical publication record.
`original_text_map` (an `FxHashMap`) is modelled as an association list. -/
structure Paper where
  page_id : Str
  arxiv_id : Str
  ss_id : Str
  title : Str
  authors : List Author
  abstract_text : Str
  publication_date : DateTimeUtc
  keywords : List Keyword
  arxiv_primary_category : Str
  arxiv_categories : List Str
  url : Str
  doi : Str
  journal : Str
  publisher : Str
  bibtex : Str
  citation_count : Nat
  influential_citation_count : Nat
  reference_count : Nat
  citations : List Paper
  references : List Paper
  original_text_map : List (Str × Section)
  original_text : List Section
  summary : Summary

/-- `#[derive(Default)]` for `Paper`. -/
def Paper.default : Paper :=
  { page_id := [], arxiv_id := [], ss_id := [], title := [], authors := [],
    abstract_text := [], publication_date := default_datetime, keywords := [],
    arxiv_primary_category := [], arxiv_categories := [], url := [], doi := [],
    journal := [], publisher := [], bibtex := [], citation_count := 0,
    influential_citation_count := 0, reference_count := 0, citations := [],
    references := [], original_text_map := [], original_text := [],
    summary := Summary.default }

/-- `common.rs::Paper::reference`: a minimal nested record, rest defaulted. -/
def Paper.reference (ss_id title abstract_text : Str) (authors : List Author)
    (publication_date : DateTimeUtc) : Paper :=
  { Paper.default with
    ss_id := ss_id
    title := title
    abstract_text := abstract_text
    authors := authors
    publication_date := publication_date }

/- ----------------------------------------------------------------------
`collector.rs`: the Record Linker.
---------------------------------------------------------------------- -/

/-- An entry of the arXiv title-query response (`arxiv_tools` entry), with the
fields `collector.rs` reads. -/
structure ArxivEntry where
  id : Str
  title : Str
  abstract_text : Str
  primary_category : Str
  categories : List Str
  pdf_url : Str
  doi : Str
deriving DecidableEq, Repr

/-- `ss_tools::structs::Author`: every field optional. -/
structure SSAuthor where
  author_id : Option Str
  name : Option Str
  url : Option Str
  affiliations : Option (List Str)
  paper_count : Option Nat
  citation_count : Option Nat
  hindex : Option Nat
deriving DecidableEq, Repr

/-- A nested citation/reference record of the Semantic Scholar response, with
the fields `collector.rs` reads. -/
structure SSRef where
  paper_id : Option Str
  title : Option Str
  abstract_text : Option Str
  authors : Option (List SSAuthor)
  publication_date : Option Str
deriving DecidableEq, Repr

/-- A Semantic Scholar title-query response entry, with the fields
`collector.rs` reads; every field optional. -/
structure SSPaper where
  paper_id : Option Str
  title : Option Str
  abstract_text : Option Str
  url : Option Str
  venue : Option Str
  reference_count : Option Nat
  citation_count : Option Nat
  influential_citation_count : Option Nat
  publication_date : Option Str
  authors : Option (List SSAuthor)
  citations : Option (List SSRef)
  references : Option (List SSRef)
deriving DecidableEq, Repr

/-- Eagerly mapping a fallible extraction over a list (Rust's
`iter().map(...).collect()` where the closure may `unwrap()`): `none` as soon
as one element fails. -/
def mapMO {α β : Type} (f : α → Option β) : List α → Option (List β)
  | [] => some []
  | a :: l =>
      match f a, mapMO f l with
      | some b, some l2 => some (b :: l2)
      | _, _ => none

/-- `common.rs::Author::from_ss_author`; `none` models the panic of
`ss_author.name.clone().unwrap()` when the name is absent. -/
def Author.from_ss_author (a : SSAuthor) : Option Author :=
  match a.name with
  | none => none
  | some n =>
      some { page_id := [],
             ss_id := a.author_id.getD [],
             name := n,
             url := a.url.getD (strOf "-"),
             affiliations := a.affiliations.getD [],
             paper_count := a.paper_count.getD 0,
             citation_count := a.citation_count.getD 0,
             h_index := a.hindex.getD 0 }

/-- Outcome of Rust's `Iterator::max_by` over `(f64, usize)` pairs with
comparator `a.0.partial_cmp(&b.0).unwrap()`:
`panicEmpty` = `.unwrap()` of `max_by`'s `None` on an empty iterator,
`panicCmp` = `.unwrap()` of `partial_cmp`'s `None` on a NaN comparison,
otherwise the last maximal element (Rust `max_by` keeps the later of ties). -/
inductive MaxByOut where
  | panicEmpty
  | panicCmp
  | found (score : Option ℚ) (idx : Nat)
deriving DecidableEq, Repr

/-- The fold inside `max_by`: `acc, y ↦ if compare(y, acc) == Less then acc else y`. -/
def maxByGo : (Option ℚ × Nat) → List (Option ℚ × Nat) → MaxByOut
  | acc, [] => .found acc.1 acc.2
  | acc, y :: rest =>
      match y.1, acc.1 with
      | some qy, some qa => maxByGo (if qy < qa then acc else y) rest
      | _, _ => .panicCmp

/-- `scores.iter().max_by(|a, b| a.0.partial_cmp(&b.0).unwrap()).unwrap()`. -/
def rustMaxBy : List (Option ℚ × Nat) → MaxByOut
  | [] => .panicEmpty
  | a :: rest => maxByGo a rest

/-- How `collector.rs` exits: normally, by a `?`-propagated transport error,
or by a panic. -/
inductive PanicReason where
  | unwrapEmptyMax
  | nanCompare
  | unwrapNone
  | noSimilarMatch (best : Str) (score : Option ℚ)
deriving DecidableEq, Repr

inductive RunResult (α : Type) where
  | ok (a : α)
  | err
  | panic (p : PanicReason)
deriving DecidableEq, Repr

/-- `score >= 0.9` with an `f64` on the left: false when the score is NaN. -/
def geQscore (s : Option ℚ) (c : ℚ) : Bool :=
  match s with
  | some q => decide (c ≤ q)
  | none => false

/-- The `(score, idx)` list both update operations build: similarity of the
lower-cased input title against each candidate's lower-cased title. -/
def linkScores (title : Str) (candTitles : List Str) : List (Option ℚ × Nat) :=
  candTitles.enum.map (fun p => (levenshtein_similarity (toLowerStr title) (toLowerStr p.2), p.1))

/-- The field merge of `collector.rs::update_from_arxiv` (lines 119–142):
identifiers (`arxiv_id`, `title`) always overwritten; the descriptive fields
guarded by `is_empty() || overwrite`. -/
def applyArxivUpdate (paper : Paper) (e : ArxivEntry) (overwrite : Bool) : Paper :=
  { paper with
    arxiv_id := e.id
    title := replaceNL e.title
    abstract_text :=
      if paper.abstract_text.isEmpty || overwrite then e.abstract_text else paper.abstract_text
    arxiv_primary_category :=
      if paper.arxiv_primary_category.isEmpty || overwrite then e.primary_category
      else paper.arxiv_primary_category
    arxiv_categories :=
      if paper.arxiv_categories.isEmpty || overwrite then e.categories else paper.arxiv_categories
    url := if paper.url.isEmpty || overwrite then e.pdf_url else paper.url
    doi := if paper.doi.isEmpty || overwrite then e.doi else paper.doi
    journal := if paper.journal.isEmpty || overwrite then strOf "arXiv" else paper.journal
    publisher := if paper.publisher.isEmpty || overwrite then strOf "arXiv" else paper.publisher }

/-- `collector.rs::update_from_arxiv`: score all candidates, take the
`max_by` winner, `assert!(score >= 0.9)` (the `NoSimilarMatch` hard assertion,
naming the best candidate's title and score), then merge. The arXiv query
itself returns a plain `Vec` (no transport error at this call site); the
response is passed in. -/
def update_from_arxiv (response : List ArxivEntry) (paper : Paper) (overwrite : Bool) :
    RunResult Paper :=
  let scores := linkScores paper.title (response.map (·.title))
  match rustMaxBy scores with
  | .panicEmpty => .panic .unwrapEmptyMax
  | .panicCmp => .panic .nanCompare
  | .found s idx =>
      match response.get? idx with
      | none => .panic .unwrapNone
      | some e =>
          if geQscore s (9/10) then .ok (applyArxivUpdate paper e overwrite)
          else .panic (.noSimilarMatch e.title s)

/-- The nested-record mapping for `citations` / `references` in
`update_from_ss` (fields `unwrap_or_default`, authors via `from_ss_author`). -/
def refToPaper (parseDate : Str → DateTimeUtc) (r : SSRef) : Option Paper :=
  (mapMO Author.from_ss_author (r.authors.getD [])).bind fun authors =>
  some (Paper.reference (r.paper_id.getD []) (replaceNL (r.title.getD []))
    (r.abstract_text.getD []) authors
    (match r.publication_date with
     | some s => parseDate s
     | none => default_datetime))

/-- The field merge of `collector.rs::update_from_ss` (lines 216–303), in
source order. `none` models a panic of one of its `unwrap()` calls.
`parseDate` stands for `utils.rs::datetime_from_str` (a thin `chrono` wrapper).
Note which fields are guarded by `is_empty() || overwrite` (abstract, url,
venue) and which are assigned unconditionally (publication date, the three
counts, authors, citations, references). -/
def applySSUpdate (parseDate : Str → DateTimeUtc) (paper : Paper) (sp : SSPaper)
    (overwrite : Bool) : Option Paper :=
  sp.paper_id.bind fun ssid =>
  sp.title.bind fun t =>
  (if paper.abstract_text.isEmpty || overwrite then sp.abstract_text
   else some paper.abstract_text).bind fun abs =>
  (if paper.url.isEmpty || overwrite then sp.url else some paper.url).bind fun url =>
  (if paper.journal.isEmpty || overwrite then sp.venue
   else some paper.journal).bind fun journal =>
  let pd1 : DateTimeUtc :=
    match sp.publication_date with
    | some s => parseDate s
    | none => default_datetime
  sp.reference_count.bind fun rc =>
  sp.citation_count.bind fun cc =>
  sp.influential_citation_count.bind fun icc =>
  sp.authors.bind fun ssAuthors =>
  (mapMO Author.from_ss_author ssAuthors).bind fun authors =>
  let pd2 : DateTimeUtc :=
    match sp.publication_date with
    | some s => if s.isEmpty || overwrite then parseDate s else pd1
    | none => pd1
  sp.citations.bind fun ssCits =>
  (mapMO (refToPaper parseDate) ssCits).bind fun cits =>
  sp.references.bind fun ssRefs =>
  (mapMO (refToPaper parseDate) ssRefs).bind fun refs =>
  some { paper with
    ss_id := ssid
    title := replaceNL t
    abstract_text := abs
    url := url
    journal := journal
    publication_date := pd2
    reference_count := rc
    citation_count := cc
    influential_citation_count := icc
    authors := authors
    citations := cits
    references := refs }

/-- `collector.rs::update_from_ss`: the Semantic Scholar query may fail with a
`?`-propagated transport error; then the same score/`max_by`/assert gate as
the arXiv side (the scoring closure unwraps each candidate's title), then the
merge. -/
def update_from_ss (parseDate : Str → DateTimeUtc)
    (queryResult : Except Unit (List SSPaper)) (paper : Paper) (overwrite : Bool) :
    RunResult Paper :=
  match queryResult with
  | .error _ => .err
  | .ok response =>
      match mapMO (·.title) response with
      | none => .panic .unwrapNone
      | some titles =>
          let scores := linkScores paper.title titles
          match rustMaxBy scores with
          | .panicEmpty => .panic .unwrapEmptyMax
          | .panicCmp => .panic .nanCompare
          | .found s idx =>
              match response.get? idx with
              | none => .panic .unwrapNone
              | some sp =>
                  if geQscore s (9/10) then
                    match applySSUpdate parseDate paper sp overwrite with
                    | none => .panic .unwrapNone
                    | some p' => .ok p'
                  else .panic (.noSimilarMatch (sp.title.getD []) s)

def wSP2 : SSPaper :=
  { paper_id := some (strOf "s"), title := some (strOf "a"),
    abstract_text := some (strOf "Z"), url := some (strOf "W"),
    venue := some (strOf "V"), reference_count := some 7, citation_count := some 8,
    influential_citation_count := some 9, publication_date := none,
    authors := some [], citations := some [], references := some [] }

def wP4 : Paper :=
  { Paper.default with
    title := strOf "a"
    abstract_text := strOf "X"
    url := strOf "U"
    journal := strOf "J"
    publication_date := 7
    citation_count := 5
    reference_count := 4
    influential_citation_count := 3
    authors := [Author.default] }

def wP4' : Paper :=
  { wP4 with
    ss_id := strOf "s"
    title := strOf "a"
    publication_date := 0
    reference_count := 7
    citation_count := 8
    influential_citation_count := 9
    authors := []
    citations := []
    references := [] }

def wP3 : Paper := { Paper.default with title := strOf "ab", abstract_text := strOf "X" }

def wE1 : ArxivEntry :=
  { id := strOf "1706.03762", title := strOf "ab", abstract_text := strOf "A",
    primary_category := strOf "cs.AI", categories := [strOf "cs.AI"],
    pdf_url := strOf "u", doi := strOf "d" }

def wP1 : Paper := { Paper.default with title := strOf "ab" }

def wSP1 : SSPaper :=
  { paper_id := some (strOf "s"), title := some (strOf "bb"),
    abstract_text := some (strOf "A"), url := some (strOf "u"),
    venue := some (strOf "v"), reference_count := some 1, citation_count := some 2,
    influential_citation_count := some 3, publication_date := none,
    authors := some [], citations := some [], references := some [] }

def wP2 : Paper := { Paper.default with title := strOf "a" }

/- ----------------------------------------------------------------------
`common.rs::Summary::task_as_vec` / `domain_as_vec`: splitting the
comma-or-full-width-comma encoded list fields.  Rust's `split(pat)` for a
one-character pattern is `List.splitOn` on the code-point list, and
`contains(pat)` is membership of that character.
---------------------------------------------------------------------- -/

def Summary.task_as_vec (sum : Summary) : List Str :=
  if ',' ∈ sum.task_as_words then sum.task_as_words.splitOn ','
  else if '、' ∈ sum.task_as_words then sum.task_as_words.splitOn '、'
  else [sum.task_as_words]

def Summary.domain_as_vec (sum : Summary) : List Str :=
  if ',' ∈ sum.domain_as_words then sum.domain_as_words.splitOn ','
  else if '、' ∈ sum.domain_as_words then sum.domain_as_words.splitOn '、'
  else [sum.domain_as_words]

def wSum : Summary := { Summary.default with task_as_words := strOf "nlp,cv" }

/- ----------------------------------------------------------------------
`cache.rs`: the Idempotency Ledger.
The serialized ledger document is modelled at the level of its JSON value;
`serde_json::to_string`/`from_str` are the external renderer/lexer of that
value.  `FxHashMap<String, String>` is modelled as its entry list.
---------------------------------------------------------------------- -/

/-- A JSON value, restricted to the shapes the ledger document uses. -/
inductive Json where
  | str (s : Str)
  | arr (elems : List Json)
  | obj (fields : List (Str × Json))
deriving Repr

def Json.asStr : Json → Option Str
  | .str s => some s
  | _ => none

/-- Field lookup in a serialized object. -/
def jLookup (key : Str) : List (Str × Json) → Option Json
  | [] => none
  | (k, v) :: rest => if k = key then some v else jLookup key rest

/-- `cache.rs::PaperCache`. -/
structure PaperCache where
  title : Str
  ss_id : Str
  page_id : Str
  failed_reason : Str
deriving DecidableEq, Repr

/-- `cache.rs::PaperCache::from_paper`. -/
def PaperCache.from_paper (paper : Paper) (failed_reason : Option Str) : PaperCache :=
  { title := paper.title, ss_id := paper.ss_id, page_id := paper.page_id,
    failed_reason :=
      match failed_reason with
      | some reason => reason
      | none => [] }

/-- `cache.rs::AuthorCache`. -/
structure AuthorCache where
  name : Str
  ss_id : Str
  page_id : Str
deriving DecidableEq, Repr

/-- `cache.rs::Cache`: the ledger.  `path` carries
`#[serde(skip_serializing, default)]`. -/
structure Cache where
  path : Str
  papers : List PaperCache
  failed_papers : List PaperCache
  authors : List AuthorCache
  author_map : List (Str × Str)
deriving DecidableEq, Repr

/-- `cache.rs::Cache::new` (the path comes from the `CACHE_DIR` environment,
passed in here). -/
def Cache.new (path : Str) : Cache :=
  { path := path, papers := [], failed_papers := [], authors := [], author_map := [] }

/-- Serde serialization of `PaperCache` (declaration field order;
`failed_reason` has `#[serde(skip_serializing_if = "String::is_empty")]`). -/
def PaperCache.toJson (p : PaperCache) : Json :=
  .obj ([(strOf "title", .str p.title), (strOf "ss_id", .str p.ss_id),
         (strOf "page_id", .str p.page_id)] ++
    (if p.failed_reason.isEmpty then [] else [(strOf "failed_reason", .str p.failed_reason)]))

/-- Serde deserialization of `PaperCache` (`failed_reason` has
`#[serde(default = "String::new")]`). -/
def PaperCache.fromJson (j : Json) : Option PaperCache :=
  match j with
  | .obj fields =>
      (jLookup (strOf "title") fields).bind fun jt => jt.asStr.bind fun title =>
      (jLookup (strOf "ss_id") fields).bind fun js => js.asStr.bind fun ss_id =>
      (jLookup (strOf "page_id") fields).bind fun jp => jp.asStr.bind fun page_id =>
      match jLookup (strOf "failed_reason") fields with
      | none => some { title := title, ss_id := ss_id, page_id := page_id, failed_reason := [] }
      | some jf => jf.asStr.bind fun fr =>
          some { title := title, ss_id := ss_id, page_id := page_id, failed_reason := fr }
  | _ => none

def AuthorCache.toJson (a : AuthorCache) : Json :=
  .obj [(strOf "name", .str a.name), (strOf "ss_id", .str a.ss_id),
        (strOf "page_id", .str a.page_id)]

def AuthorCache.fromJson (j : Json) : Option AuthorCache :=
  match j with
  | .obj fields =>
      (jLookup (strOf "name") fields).bind fun jn => jn.asStr.bind fun name =>
      (jLookup (strOf "ss_id") fields).bind fun js => js.asStr.bind fun ss_id =>
      (jLookup (strOf "page_id") fields).bind fun jp => jp.asStr.bind fun page_id =>
      some { name := name, ss_id := ss_id, page_id := page_id }
  | _ => none

/-- `serde_json::to_string(&self)` for the ledger, as its JSON document
(`path` is skipped). -/
def Cache.toJson (c : Cache) : Json :=
  .obj [(strOf "papers", .arr (c.papers.map PaperCache.toJson)),
        (strOf "failed_papers", .arr (c.failed_papers.map PaperCache.toJson)),
        (strOf "authors", .arr (c.authors.map AuthorCache.toJson)),
        (strOf "author_map", .obj (c.author_map.map (fun kv => (kv.1, .str kv.2))))]

/-- `serde_json::from_str::<Cache>` followed by `cache.path = path`
(as `Cache::load` does). -/
def Cache.fromJson (path : Str) (j : Json) : Option Cache :=
  match j with
  | .obj fields =>
      (jLookup (strOf "papers") fields).bind fun jp =>
      (match jp with
       | .arr l => mapMO PaperCache.fromJson l
       | _ => none).bind fun papers =>
      (jLookup (strOf "failed_papers") fields).bind fun jf =>
      (match jf with
       | .arr l => mapMO PaperCache.fromJson l
       | _ => none).bind fun failed_papers =>
      (jLookup (strOf "authors") fields).bind fun ja =>
      (match ja with
       | .arr l => mapMO AuthorCache.fromJson l
       | _ => none).bind fun authors =>
      (jLookup (strOf "author_map") fields).bind fun jm =>
      (match jm with
       | .obj l => mapMO (fun (kv : Str × Json) => kv.2.asStr.map (fun v => (kv.1, v))) l
       | _ => none).bind fun author_map =>
      some { path := path, papers := papers, failed_papers := failed_papers,
             authors := authors, author_map := author_map }
  | _ => none

/-- The visible file-system state of the ledger: the primary file
(`cache.json`) and the backup (`cache.org.json`), each holding a JSON
document when present, plus whether the parent directory exists. -/
structure FsState where
  parentExists : Bool
  primary : Option Json
  backup : Option Json
deriving Repr

inductive SaveErr where
  | backupCopyFailed
deriving DecidableEq, Repr

/-- `cache.rs::Cache::save`: create the parent directory if missing, copy the
primary file to the backup path — `std::fs::copy(path, org_path)?` PROPAGATES
its error when the primary file does not exist — then write the serialized
ledger to the primary path. -/
def Cache.save (c : Cache) (fs : FsState) : Except SaveErr FsState :=
  let fs1 : FsState := { fs with parentExists := true }
  match fs1.primary with
  | none => .error .backupCopyFailed
  | some content => .ok { fs1 with backup := some content, primary := some c.toJson }

/-- `cache.rs::Cache::load`: deserialize the primary file if present
(a parse failure propagates), otherwise return a fresh ledger. -/
def Cache.load (path : Str) (fs : FsState) : Except Unit Cache :=
  match fs.primary with
  | some j =>
      match Cache.fromJson path j with
      | some c => .ok c
      | none => .error ()
  | none => .ok (Cache.new path)

/-- `cache.rs::Cache::is_exist_paper`: case-insensitive exact title match. -/
def Cache.is_exist_paper (c : Cache) (title : Str) : Bool :=
  c.papers.any (fun x => toLowerStr x.title == toLowerStr title)

/-- Overwriting insert of `FxHashMap::insert`, on the entry-list model. -/
def mapInsert (k v : Str) : List (Str × Str) → List (Str × Str)
  | [] => [(k, v)]
  | (k2, v2) :: rest => if k2 = k then (k, v) :: rest else (k2, v2) :: mapInsert k v rest

/-- Plain association lookup (`HashMap::get` / `contains_key`). -/
def mapGet (key : Str) : List (Str × Str) → Option Str
  | [] => none
  | (k, v) :: rest => if k = key then some v else mapGet key rest

/-- `cache.rs::Cache::is_exist_author`. -/
def Cache.is_exist_author (c : Cache) (ss_id : Str) : Bool :=
  (mapGet ss_id c.author_map).isSome

/-- `cache.rs::Cache::get_author_id`. -/
def Cache.get_author_id (c : Cache) (ss_id : Str) : Option Str :=
  mapGet ss_id c.author_map

/-- `cache.rs::Cache::add_paper` (`Vec::push`). -/
def Cache.add_paper (c : Cache) (p : PaperCache) : Cache :=
  { c with papers := c.papers ++ [p] }

/-- `cache.rs::Cache::add_author`: push and index. -/
def Cache.add_author (c : Cache) (a : AuthorCache) : Cache :=
  { c with authors := c.authors ++ [a], author_map := mapInsert a.ss_id a.page_id c.author_map }

def wPC : PaperCache :=
  { title := strOf "t", ss_id := strOf "s", page_id := strOf "p", failed_reason := [] }

def wCache : Cache :=
  { path := [], papers := [wPC], failed_papers := [], authors := [],
    author_map := [(strOf "a", strOf "pid")] }

/- ----------------------------------------------------------------------
`reporter.rs::Reporter::add_a_paper` and `common.rs::StatusCode`.
---------------------------------------------------------------------- -/

/-- `common.rs::StatusCode`. -/
inductive StatusCode where
  | success
  | failure (msg : Str)
  | paperAlreadyExists
deriving DecidableEq, Repr

/-- `reporter.rs::Reporter::add_a_paper`.  The two destination-store calls are
oracles: `createPage` (`notion.create_a_page`, returning the new page id or an
error) and `updateContent` (`update_page_content`, whose own notion call may
fail).  The page-property map handed to the store is external payload; only
its two panicking reads are modelled: `paper.authors.first().unwrap()` for the
display key, and `cache.get_author_id(..).unwrap()` for the first author's
relation — `none` models those panics.  The returned `Nat` counts
`create_a_page` calls; a `save` failure propagates via `?` as `.error`. -/
def add_a_paper (createPage : Except Str Str) (updateContent : Except Str Unit)
    (paper : Paper) (cache : Cache) (fs : FsState) :
    Option (Except SaveErr (StatusCode × Paper × Cache × FsState) × Nat) :=
  if cache.is_exist_paper paper.title then
    some (.ok (.paperAlreadyExists, paper, cache, fs), 0)
  else
    match paper.authors.head? with
    | none => none
    | some first =>
        match cache.get_author_id first.ss_id with
        | none => none
        | some _aid =>
            match createPage with
            | .error e =>
                some (.ok (.failure (strOf "Failed to add paper to database: " ++ e),
                  paper, cache, fs), 1)
            | .ok page_id =>
                let paper2 := { paper with page_id := page_id }
                match updateContent with
                | .error e =>
                    some (.ok (.failure (strOf "Failed to update page content: " ++ e),
                      paper2, cache, fs), 1)
                | .ok _ =>
                    let cache2 := cache.add_paper (PaperCache.from_paper paper2 none)
                    match cache2.save fs with
                    | .error e => some (.error e, 1)
                    | .ok fs2 => some (.ok (.success, paper2, cache2, fs2), 1)

def wCache2 : Cache :=
  { path := [],
    papers := [{ title := strOf "A", ss_id := [], page_id := [], failed_reason := [] }],
    failed_papers := [], authors := [], author_map := [] }

def wPaper5 : Paper := { Paper.default with title := strOf "a" }

/- ----------------------------------------------------------------------
`ai.rs`: the Resilient Extractor.
---------------------------------------------------------------------- -/

/-- `openai_tools::Message`: a chat turn. -/
structure Message where
  role : Str
  content : Str
deriving DecidableEq, Repr

/-- `common.rs::Paper::original_text2xml`: the document serialized as the
tagged hierarchical text block sent to the model (sections sorted by index;
the trailing `</paper` is unclosed in the source and kept as such). -/
def Paper.original_text2xml (p : Paper) : Str :=
  let sections := (p.original_text_map.map (·.2)).mergeSort (fun a b => a.index ≤ b.index)
  strOf "<paper>" ++
  strOf "<metadata>" ++
  strOf "<title>" ++ p.title ++ strOf "</title>" ++
  strOf "<authors>" ++
  (p.authors.map (fun a => strOf "<author>" ++ a.name ++ strOf "</author>")).flatten ++
  strOf "</authors>" ++
  strOf "</metadata>" ++
  strOf "<contents>" ++
  (sections.map (fun sec =>
    strOf "<section>" ++
    strOf "<title>" ++ sec.title ++ strOf "</title>" ++
    (sec.contents.map (fun par => strOf "<paragraph>" ++ par ++ strOf "</paragraph>")).flatten ++
    strOf "</section>")).flatten ++
  strOf "</contents>" ++
  strOf "</paper"

/-- `ai.rs::AI::get_messages`: the fixed multi-turn prompt (system statement,
title framing, externally supplied instruction template, tagged document,
final directive).  `get_instruction`'s third component (the reference block)
is built and immediately discarded by `get_messages` (its use is commented
out in the source), so it is omitted here. -/
def get_messages (paper : Paper) (instruction : Str) : List Message :=
  [ { role := strOf "system", content := strOf "あなたは優秀な研究アシスタントです．" },
    { role := strOf "user",
      content := strOf "これからこの論文の要約の準備をしてください: " ++ paper.title },
    { role := strOf "user",
      content := strOf "要約の際は以下の指示に従ってください: \n\n" ++ instruction },
    { role := strOf "user",
      content := strOf "以下は，論文の内容です．\n\n" ++
        (strOf "############ 論文 ############\n" ++ paper.original_text2xml) },
    { role := strOf "user", content := strOf "要約してください:" } ]

/-- The two corrective turns appended after a failed chat attempt. -/
def correctiveTurns : List Message :=
  [ { role := strOf "system", content := strOf "JSON形式で出力してください．" },
    { role := strOf "user", content := strOf "要約してください．" } ]

/-- How `ai.rs::AI::summarize` exits. -/
inductive SummResult where
  | ok
  | errExhausted
  | errParse
  | panicEmptyDoc
deriving DecidableEq, Repr

/-- The `while retry_count > 0` loop of `ai.rs::AI::summarize`, recursing on
the remaining retry budget.  `chat` is the endpoint oracle, indexed by the
attempt number (the endpoint may answer differently each call); `parse` is
`serde_json::from_str::<Summary>`.  On a chat error the two corrective turns
are appended and the (now longer) conversation is retried; on a chat success
a parse failure is NOT retried (`?` propagates it).  Returns the parsed
summary (on full success), the exit kind, and the number of chat calls made. -/
def summarizeLoop (chat : Nat → List Message → Except Unit Str)
    (parse : Str → Option Summary) :
    List Message → Nat → Nat → Option Summary × SummResult × Nat
  | _msgs, _attempt, 0 => (none, .errExhausted, 0)
  | msgs, attempt, n + 1 =>
      match chat attempt msgs with
      | .error _ =>
          let r := summarizeLoop chat parse (msgs ++ correctiveTurns) (attempt + 1) n
          (r.1, r.2.1, r.2.2 + 1)
      | .ok content =>
          match parse content with
          | some sum => (some sum, .ok, 1)
          | none => (none, .errParse, 1)

/-- `ai.rs::AI::summarize`: build the prompt (the `assert!` on a non-empty
document panics first — `panicEmptyDoc`), then run the retry loop with a
budget of 5; only on full success is the record's Summary mutated. -/
def summarize (chat : Nat → List Message → Except Unit Str)
    (parse : Str → Option Summary) (instruction : Str) (paper : Paper) :
    SummResult × Paper × Nat :=
  if paper.original_text_map.isEmpty then (.panicEmptyDoc, paper, 0)
  else
    match summarizeLoop chat parse (get_messages paper instruction) 0 5 with
    | (some sum, .ok, cnt) => (.ok, { paper with summary := sum }, cnt)
    | (_, r, cnt) => (r, paper, cnt)

def wSec : Section := { title := strOf "Introduction", contents := [strOf "text"], index := 0 }

def wPaper2 : Paper :=
  { Paper.default with title := strOf "T", original_text_map := [(strOf "Introduction", wSec)] }

def wSum2 : Summary := { Summary.default with overview := strOf "o" }

def chatFail : Nat → List Message → Except Unit Str := fun _ _ => .error ()

def chat5 : Nat → List Message → Except Unit Str :=
  fun k _ => if k < 4 then .error () else .ok (strOf "payload")

def parse1 : Str → Option Summary := fun _ => some wSum2

/- ----------------------------------------------------------------------
Theorems.
---------------------------------------------------------------------- -/

theorem levenshtein_dist_nil_left (s2 : Str) : levenshtein_dist [] s2 = s2.length := by
  cases s2 <;> simp [levenshtein_dist]

theorem levenshtein_dist_nil_right (s1 : Str) : levenshtein_dist s1 [] = s1.length := by
  cases s1 <;> simp [levenshtein_dist]

theorem levenshtein_dist_self (s : Str) : levenshtein_dist s s = 0 := by
  induction s with
  | nil => simp [levenshtein_dist]
  | cons c s ih =>
      rw [levenshtein_dist]
      simp [ih]

theorem levenshtein_dist_le_max (s1 s2 : Str) :
    levenshtein_dist s1 s2 ≤ max s1.length s2.length := by
  induction s1 generalizing s2 with
  | nil => simp [levenshtein_dist_nil_left]
  | cons c1 s1 ih =>
      induction s2 with
      | nil => simp [levenshtein_dist_nil_right]
      | cons c2 s2 _ =>
          rw [levenshtein_dist]
          have h := ih s2
          have hcost : (if c1 = c2 then 0 else 1) ≤ 1 := by split <;> omega
          have : levenshtein_dist s1 s2 + (if c1 = c2 then 0 else 1)
              ≤ max s1.length s2.length + 1 := by omega
          calc min (levenshtein_dist s1 (c2 :: s2) + 1)
                (min (levenshtein_dist (c1 :: s1) s2 + 1)
                  (levenshtein_dist s1 s2 + (if c1 = c2 then 0 else 1)))
              ≤ levenshtein_dist s1 s2 + (if c1 = c2 then 0 else 1) :=
                le_trans (min_le_right _ _) (min_le_right _ _)
            _ ≤ max s1.length s2.length + 1 := this
            _ ≤ max (c1 :: s1).length (c2 :: s2).length := by
                simp [List.length_cons]
                omega

/-- The similarity score, whenever it is a number at all, lies in `[1/2, 1]`. -/
theorem levenshtein_similarity_bounds (s1 s2 : Str) (q : ℚ)
    (h : levenshtein_similarity s1 s2 = some q) : 1/2 ≤ q ∧ q ≤ 1 := by
  unfold levenshtein_similarity levenshtein_dist_normalized at h
  by_cases hm : max s1.length s2.length = 0
  · simp [hm] at h
  · simp only [hm, if_false, Option.map_some] at h
    obtain rfl : (1 : ℚ) / (1 + (levenshtein_dist s1 s2 : ℚ) / (max s1.length s2.length : ℚ)) = q := by
      simpa using h
    set d : ℚ := (levenshtein_dist s1 s2 : ℚ) / (max s1.length s2.length : ℚ) with hd
    have hmpos : (0 : ℚ) < (max s1.length s2.length : ℚ) := by
      exact_mod_cast Nat.pos_of_ne_zero hm
    have hd0 : 0 ≤ d := by
      apply div_nonneg _ (le_of_lt hmpos)
      exact_mod_cast Nat.zero_le _
    have hd1 : d ≤ 1 := by
      rw [hd, div_le_one hmpos]
      exact_mod_cast levenshtein_dist_le_max s1 s2
    constructor
    · rw [div_le_div_iff₀ (by norm_num) (by linarith)]
      linarith
    · rw [div_le_one (by linarith)]
      linarith

/- ----------------------------------------------------------------------
Selection lemmas: `max_by` really returns a maximal element of the list.
---------------------------------------------------------------------- -/

theorem maxByGo_found_mem (l : List (Option ℚ × Nat)) (acc : Option ℚ × Nat)
    (s : Option ℚ) (i : Nat) (h : maxByGo acc l = .found s i) : (s, i) ∈ acc :: l := by
  induction l generalizing acc with
  | nil =>
      simp [maxByGo] at h
      simp [← h.1, ← h.2]
  | cons y rest ih =>
      rw [maxByGo] at h
      rcases hy : y.1 with _ | qy <;> rcases ha : acc.1 with _ | qa <;>
        simp [hy, ha] at h
      rcases List.mem_cons.mp (ih _ h) with h1 | h1
      · split at h1 <;> simp [h1]
      · simp [List.mem_cons_of_mem, h1]

theorem maxByGo_found_max (l : List (Option ℚ × Nat)) (acc : Option ℚ × Nat)
    (q : ℚ) (i : Nat) (h : maxByGo acc l = .found (some q) i) :
    ∀ x ∈ acc :: l, ∀ q', x.1 = some q' → q' ≤ q := by
  induction l generalizing acc with
  | nil =>
      simp [maxByGo] at h
      intro x hx q' hq'
      simp at hx
      subst hx
      rw [h.1] at hq'
      simp at hq'
      simp [hq']
  | cons y rest ih =>
      rw [maxByGo] at h
      rcases hy : y.1 with _ | qy <;> rcases ha : acc.1 with _ | qa <;>
        simp [hy, ha] at h
      have hmain := ih _ h
      have hacc' : ∀ q', (if qy < qa then acc else y).1 = some q' → q' ≤ q := by
        intro q' hq'
        exact hmain _ (List.mem_cons_self _ _) q' hq'
      intro x hx q' hq'
      rcases List.mem_cons.mp hx with rfl | hx'
      · by_cases hlt : qy < qa
        · exact hacc' q' (by simpa [hlt] using hq')
        · have hyq : qy ≤ q := hacc' qy (by simp [hlt, hy])
          have hle : qa ≤ qy := le_of_not_lt hlt
          rw [ha] at hq'
          simp at hq'
          linarith
      · rcases List.mem_cons.mp hx' with rfl | hx''
        · by_cases hlt : qy < qa
          · have hqa : qa ≤ q := hacc' qa (by simp [hlt, ha])
            rw [hy] at hq'
            simp at hq'
            linarith
          · exact hacc' q' (by simpa [hlt] using hq')
        · exact hmain x (List.mem_cons_of_mem _ hx'') q' hq'

theorem rustMaxBy_found_mem (l : List (Option ℚ × Nat)) (s : Option ℚ) (i : Nat)
    (h : rustMaxBy l = .found s i) : (s, i) ∈ l := by
  cases l with
  | nil => simp [rustMaxBy] at h
  | cons a rest => exact maxByGo_found_mem rest a s i h

theorem rustMaxBy_found_max (l : List (Option ℚ × Nat)) (q : ℚ) (i : Nat)
    (h : rustMaxBy l = .found (some q) i) :
    ∀ x ∈ l, ∀ q', x.1 = some q' → q' ≤ q := by
  cases l with
  | nil => simp [rustMaxBy] at h
  | cons a rest => exact maxByGo_found_max rest a q i h

theorem linkScores_mem (title : Str) (ts : List Str) (s : Option ℚ) (i : Nat)
    (h : (s, i) ∈ linkScores title ts) :
    ∃ c, ts[i]? = some c ∧ s = levenshtein_similarity (toLowerStr title) (toLowerStr c) := by
  unfold linkScores at h
  simp only [List.mem_map] at h
  obtain ⟨p, hp, heq⟩ := h
  obtain ⟨h1, h2⟩ := Prod.mk.injEq .. ▸ heq
  refine ⟨p.2, ?_, h1.symm⟩
  rw [← h2]
  exact (List.mk_mem_enum_iff_getElem?).mp (by simpa using hp)

theorem mapMO_some_length {α β : Type} (f : α → Option β) (l : List α) (l2 : List β)
    (h : mapMO f l = some l2) : l2.length = l.length := by
  induction l generalizing l2 with
  | nil =>
      simp [mapMO] at h
      simp [← h]
  | cons a rest ih =>
      rw [mapMO] at h
      rcases hfa : f a with _ | b <;> rcases hrest : mapMO f rest with _ | l3 <;>
        simp [hfa, hrest] at h
      simp [← h, ih _ hrest]

theorem mapMO_some_get {α β : Type} (f : α → Option β) (l : List α) (l2 : List β)
    (h : mapMO f l = some l2) (i : Nat) (b : β) (hb : l2[i]? = some b) :
    ∃ a, l[i]? = some a ∧ f a = some b := by
  induction l generalizing l2 i with
  | nil =>
      simp [mapMO] at h
      subst h
      simp at hb
  | cons a rest ih =>
      rw [mapMO] at h
      rcases hfa : f a with _ | b2 <;> rcases hrest : mapMO f rest with _ | l3 <;>
        simp [hfa, hrest] at h
      subst h
      cases i with
      | zero =>
          simp at hb
          exact ⟨a, by simp, by simp [hfa, hb]⟩
      | succ j =>
          simp at hb
          obtain ⟨a2, ha2, hfa2⟩ := ih _ hrest j hb
          exact ⟨a2, by simpa using ha2, hfa2⟩

/- ----------------------------------------------------------------------
Inversion and preservation lemmas for the Record Linker merges.
---------------------------------------------------------------------- -/

theorem strNe_isEmpty {α : Type} (l : List α) (h : l ≠ []) : l.isEmpty = false := by
  cases l <;> simp_all

theorem update_from_arxiv_ok_inv (response : List ArxivEntry) (paper : Paper) (ow : Bool)
    (p2 : Paper) (h : update_from_arxiv response paper ow = .ok p2) :
    ∃ e, p2 = applyArxivUpdate paper e ow := by
  simp only [update_from_arxiv] at h
  rcases hm : rustMaxBy (linkScores paper.title (response.map (·.title))) with _ | _ | ⟨s, idx⟩ <;>
    simp [hm] at h
  rcases hg : response[idx]? with _ | e <;> simp [hg] at h
  by_cases hge : geQscore s (9/10) = true <;> simp [hge] at h
  exact ⟨e, h.symm⟩

theorem update_from_ss_ok_inv (pd : Str → DateTimeUtc) (qr : Except Unit (List SSPaper))
    (paper : Paper) (ow : Bool) (p2 : Paper) (h : update_from_ss pd qr paper ow = .ok p2) :
    ∃ sp, applySSUpdate pd paper sp ow = some p2 := by
  simp only [update_from_ss] at h
  rcases qr with _ | response
  · simp at h
  rcases hmap : mapMO (fun x => x.title) response with _ | titles <;> simp [hmap] at h
  rcases hm : rustMaxBy (linkScores paper.title titles) with _ | _ | ⟨s, idx⟩ <;>
    simp [hm] at h
  rcases hg : response[idx]? with _ | sp <;> simp [hg] at h
  by_cases hge : geQscore s (9/10) = true <;> simp [hge] at h
  rcases happ : applySSUpdate pd paper sp ow with _ | p3 <;> simp [happ] at h
  exact ⟨sp, by rw [happ, h]⟩

theorem applyArxivUpdate_preserves (paper : Paper) (e : ArxivEntry) :
    (paper.abstract_text ≠ [] →
      (applyArxivUpdate paper e false).abstract_text = paper.abstract_text) ∧
    (paper.arxiv_primary_category ≠ [] →
      (applyArxivUpdate paper e false).arxiv_primary_category = paper.arxiv_primary_category) ∧
    (paper.arxiv_categories ≠ [] →
      (applyArxivUpdate paper e false).arxiv_categories = paper.arxiv_categories) ∧
    (paper.url ≠ [] → (applyArxivUpdate paper e false).url = paper.url) ∧
    (paper.doi ≠ [] → (applyArxivUpdate paper e false).doi = paper.doi) ∧
    (paper.journal ≠ [] → (applyArxivUpdate paper e false).journal = paper.journal) ∧
    (paper.publisher ≠ [] → (applyArxivUpdate paper e false).publisher = paper.publisher) := by
  refine ⟨?_, ?_, ?_, ?_, ?_, ?_, ?_⟩ <;>
    intro hne <;> simp [applyArxivUpdate, strNe_isEmpty _ hne]

theorem applySSUpdate_preserves (pd : Str → DateTimeUtc) (paper : Paper) (sp : SSPaper)
    (p2 : Paper) (h : applySSUpdate pd paper sp false = some p2) :
    (paper.abstract_text ≠ [] → p2.abstract_text = paper.abstract_text) ∧
    (paper.url ≠ [] → p2.url = paper.url) ∧
    (paper.journal ≠ [] → p2.journal = paper.journal) := by
  rw [applySSUpdate] at h
  obtain ⟨ssid, hssid, h⟩ := Option.bind_eq_some.mp h
  obtain ⟨t, ht, h⟩ := Option.bind_eq_some.mp h
  obtain ⟨abs, habs, h⟩ := Option.bind_eq_some.mp h
  obtain ⟨url, hurl, h⟩ := Option.bind_eq_some.mp h
  obtain ⟨journal, hjournal, h⟩ := Option.bind_eq_some.mp h
  obtain ⟨rc, hrc, h⟩ := Option.bind_eq_some.mp h
  obtain ⟨cc, hcc, h⟩ := Option.bind_eq_some.mp h
  obtain ⟨icc, hicc, h⟩ := Option.bind_eq_some.mp h
  obtain ⟨ssA, hssA, h⟩ := Option.bind_eq_some.mp h
  obtain ⟨authors, hauthors, h⟩ := Option.bind_eq_some.mp h
  obtain ⟨ssC, hssC, h⟩ := Option.bind_eq_some.mp h
  obtain ⟨cits, hcits, h⟩ := Option.bind_eq_some.mp h
  obtain ⟨ssR, hssR, h⟩ := Option.bind_eq_some.mp h
  obtain ⟨refs, hrefs, h⟩ := Option.bind_eq_some.mp h
  have hp2 := Option.some_inj.mp h
  subst hp2
  refine ⟨?_, ?_, ?_⟩ <;> intro hne
  · simp [strNe_isEmpty _ hne] at habs
    simp [← habs]
  · simp [strNe_isEmpty _ hne] at hurl
    simp [← hurl]
  · simp [strNe_isEmpty _ hne] at hjournal
    simp [← hjournal]

/-- Claim C1 (amended): with `overwrite = false`, `update_from_arxiv` preserves
every non-empty descriptive field (abstract, primary category, categories,
URL, DOI, journal, publisher), while `update_from_ss` preserves only its three
guarded descriptive fields (abstract, URL, venue/journal); the remaining
`update_from_ss` fields (publication date, counts, authors, citation and
reference lists) are assigned unconditionally, as the counterexample shows. -/
theorem linker_no_overwrite_frame :
    (∀ (response : List ArxivEntry) (paper p2 : Paper),
      update_from_arxiv response paper false = .ok p2 →
      (paper.abstract_text ≠ [] → p2.abstract_text = paper.abstract_text) ∧
      (paper.arxiv_primary_category ≠ [] →
        p2.arxiv_primary_category = paper.arxiv_primary_category) ∧
      (paper.arxiv_categories ≠ [] → p2.arxiv_categories = paper.arxiv_categories) ∧
      (paper.url ≠ [] → p2.url = paper.url) ∧
      (paper.doi ≠ [] → p2.doi = paper.doi) ∧
      (paper.journal ≠ [] → p2.journal = paper.journal) ∧
      (paper.publisher ≠ [] → p2.publisher = paper.publisher))
  ∧ (∀ (pd : Str → DateTimeUtc) (qr : Except Unit (List SSPaper)) (paper p2 : Paper),
      update_from_ss pd qr paper false = .ok p2 →
      (paper.abstract_text ≠ [] → p2.abstract_text = paper.abstract_text) ∧
      (paper.url ≠ [] → p2.url = paper.url) ∧
      (paper.journal ≠ [] → p2.journal = paper.journal)) := by
  constructor
  · intro response paper p2 h
    obtain ⟨e, rfl⟩ := update_from_arxiv_ok_inv response paper false p2 h
    exact applyArxivUpdate_preserves paper e
  · intro pd qr paper p2 h
    obtain ⟨sp, happ⟩ := update_from_ss_ok_inv pd qr paper false p2 h
    exact applySSUpdate_preserves pd paper sp p2 happ

/-- Claim C1 (counterexample): a concrete `update_from_ss` call with
`overwrite = false` replaces the prior non-default citation count, publication
date and author list of the record. -/
theorem linker_no_overwrite_counterexample :
    update_from_ss (fun _ => 0) (.ok [wSP2]) wP4 false = .ok wP4' ∧
    wP4.citation_count = 5 ∧ wP4'.citation_count = 8 ∧
    wP4.publication_date = 7 ∧ wP4'.publication_date = 0 ∧
    wP4.authors = [Author.default] ∧ wP4'.authors = [] := by
  refine ⟨?_, rfl, rfl, rfl, rfl, rfl, rfl⟩
  simp +decide [update_from_ss, mapMO, wSP2, wP4, wP4', linkScores, toLowerStr, strOf,
    levenshtein_similarity, levenshtein_dist_normalized, levenshtein_dist, rustMaxBy,
    maxByGo, geQscore, applySSUpdate, refToPaper, replaceNL, Paper.default,
    default_datetime, Author.default, Summary.default]
  norm_num

theorem linker_no_overwrite_frame_witness :
    (applyArxivUpdate wP3 wE1 false).abstract_text = wP3.abstract_text ∧
    wP4'.url = wP4.url := by
  constructor
  · exact (linker_no_overwrite_frame.1 [wE1] wP3 (applyArxivUpdate wP3 wE1 false)
      (by
        simp +decide [update_from_arxiv, wE1, wP3, linkScores, toLowerStr, strOf,
          levenshtein_similarity, levenshtein_dist_normalized, levenshtein_dist,
          rustMaxBy, maxByGo, geQscore, Paper.default]
        norm_num)).1 (by decide)
  · exact (linker_no_overwrite_frame.2 (fun _ => 0) (.ok [wSP2]) wP4 wP4'
      (by
        simp +decide [update_from_ss, mapMO, wSP2, wP4, wP4', linkScores, toLowerStr,
          strOf, levenshtein_similarity, levenshtein_dist_normalized, levenshtein_dist,
          rustMaxBy, maxByGo, geQscore, applySSUpdate, refToPaper, replaceNL,
          Paper.default, default_datetime, Author.default, Summary.default]
        norm_num)).2.1 (by decide)

/-- Claim C4: in both update operations the maximum-scoring candidate (the
`max_by` winner really is a maximum of the score list) is accepted exactly
when its case-insensitive title-similarity score is at least `9/10` — on
`9/10 ≤ q` the merge proceeds, on `q < 9/10` the operation fails through the
`assert!` naming the best candidate's title and its score (the spec's
`NoSimilarMatch`), never silently. -/
theorem linker_threshold_gate :
    (∀ (response : List ArxivEntry) (paper : Paper) (ow : Bool) (q : ℚ) (i : Nat),
      rustMaxBy (linkScores paper.title (response.map (·.title))) = .found (some q) i →
      (∀ x ∈ linkScores paper.title (response.map (·.title)), ∀ q', x.1 = some q' → q' ≤ q) ∧
      (∃ e, response[i]? = some e ∧
        (9/10 ≤ q → update_from_arxiv response paper ow = .ok (applyArxivUpdate paper e ow)) ∧
        (q < 9/10 →
          update_from_arxiv response paper ow = .panic (.noSimilarMatch e.title (some q)))))
  ∧ (∀ (pd : Str → DateTimeUtc) (response : List SSPaper) (paper : Paper) (ow : Bool)
      (q : ℚ) (i : Nat) (titles : List Str),
      mapMO (·.title) response = some titles →
      rustMaxBy (linkScores paper.title titles) = .found (some q) i →
      (∀ x ∈ linkScores paper.title titles, ∀ q', x.1 = some q' → q' ≤ q) ∧
      (∃ sp c, response[i]? = some sp ∧ sp.title = some c ∧
        (9/10 ≤ q → update_from_ss pd (.ok response) paper ow =
          (match applySSUpdate pd paper sp ow with
           | none => .panic .unwrapNone
           | some p2 => .ok p2)) ∧
        (q < 9/10 →
          update_from_ss pd (.ok response) paper ow = .panic (.noSimilarMatch c (some q))))) := by
  constructor
  · intro response paper ow q i h
    refine ⟨rustMaxBy_found_max _ q i h, ?_⟩
    obtain ⟨c, hc, _⟩ := linkScores_mem _ _ _ _ (rustMaxBy_found_mem _ _ _ h)
    obtain ⟨e, he, _⟩ : ∃ e, response[i]? = some e ∧ e.title = c := by simpa using hc
    refine ⟨e, he, ?_, ?_⟩
    · intro hq
      simp [update_from_arxiv, h, he, geQscore, hq]
    · intro hq
      simp [update_from_arxiv, h, he, geQscore, not_le.mpr hq]
  · intro pd response paper ow q i titles hmap h
    refine ⟨rustMaxBy_found_max _ q i h, ?_⟩
    obtain ⟨c, hc, _⟩ := linkScores_mem _ _ _ _ (rustMaxBy_found_mem _ _ _ h)
    obtain ⟨sp, hsp, htitle⟩ := mapMO_some_get _ _ _ hmap i c hc
    refine ⟨sp, c, hsp, htitle, ?_, ?_⟩
    · intro hq
      simp [update_from_ss, hmap, h, hsp, geQscore, hq]
    · intro hq
      simp [update_from_ss, hmap, h, hsp, geQscore, not_le.mpr hq, htitle]

/-- Claim C10: when the metadata source returns an empty candidate list, both
update operations panic at the `unwrap()` of `max_by` over the empty score
list (`unwrapEmptyMax`), instead of returning the `NoSimilarMatch` assertion
failure or any error value. -/
theorem linker_empty_candidates_panic :
    (∀ (paper : Paper) (ow : Bool),
      update_from_arxiv [] paper ow = .panic .unwrapEmptyMax) ∧
    (∀ (pd : Str → DateTimeUtc) (paper : Paper) (ow : Bool),
      update_from_ss pd (.ok []) paper ow = .panic .unwrapEmptyMax) := by
  constructor
  · intro paper ow
    simp [update_from_arxiv, linkScores, rustMaxBy]
  · intro pd paper ow
    simp [update_from_ss, mapMO, linkScores, rustMaxBy]

theorem linker_threshold_gate_witness :
    update_from_arxiv [wE1] wP1 false = .ok (applyArxivUpdate wP1 wE1 false) ∧
    update_from_ss (fun _ => 0) (.ok [wSP1]) wP2 false =
      .panic (.noSimilarMatch (strOf "bb") (some (1/2))) := by
  constructor
  · obtain ⟨-, e, he, hacc, -⟩ :=
      (linker_threshold_gate.1 [wE1] wP1 false 1 0 (by
        simp +decide [linkScores, levenshtein_similarity, levenshtein_dist_normalized,
          levenshtein_dist, toLowerStr, strOf, rustMaxBy, maxByGo, wP1, wE1, Paper.default]))
    simp at he
    subst he
    exact hacc (by norm_num)
  · obtain ⟨-, sp, c, hsp, htitle, -, hrej⟩ :=
      (linker_threshold_gate.2 (fun _ => 0) [wSP1] wP2 false (1/2) 0 [strOf "bb"]
        (by simp [mapMO, wSP1])
        (by
          simp +decide [linkScores, levenshtein_similarity, levenshtein_dist_normalized,
            levenshtein_dist, toLowerStr, strOf, rustMaxBy, maxByGo, wP2, Paper.default]
          norm_num))
    simp at hsp
    subst hsp
    simp [wSP1, strOf] at htitle
    subst htitle
    simpa [strOf] using hrej (by norm_num)

/-- Claim C7 (counterexample): on the empty string the self-similarity is the
IEEE `0.0/0.0 = NaN` (modelled `none`), not `1.0`. -/
theorem similarity_self_counterexample :
    levenshtein_similarity [] [] = none ∧ levenshtein_similarity [] [] ≠ some 1 := by
  constructor <;> simp [levenshtein_similarity, levenshtein_dist_normalized]

/-- Claim C7 (amended): for every non-empty string `a`,
`levenshtein_similarity a a = 1.0`; on the empty string the result is NaN. -/
theorem similarity_self_eq_one (s : Str) (h : s ≠ []) :
    levenshtein_similarity s s = some 1 := by
  have hlen : s.length ≠ 0 := by simpa [List.length_eq_zero] using h
  simp [levenshtein_similarity, levenshtein_dist_normalized, levenshtein_dist_self, hlen]

theorem similarity_self_eq_one_witness :
    levenshtein_similarity (strOf "a") (strOf "a") = some 1 :=
  similarity_self_eq_one (strOf "a") (by decide)

/-- Claim C8 (counterexample): no pair of strings has similarity below `1/4`
(the claim asserts scores arbitrarily close to `0`): the score is `1/(1+d)`
with the normalized distance `d ≤ 1`, hence never below `1/2`. -/
theorem similarity_approaches_zero_counterexample :
    ¬ ∃ (a b : Str) (q : ℚ), levenshtein_similarity a b = some q ∧ q < 1/4 := by
  rintro ⟨a, b, q, h, hlt⟩
  have := levenshtein_similarity_bounds a b q h
  linarith [this.1]

/-- Claim C8 (amended): whenever at least one string is non-empty the score is
a number in `[1/2, 1]`; completely dissimilar strings approach `1/2`, not `0`. -/
theorem similarity_bounded_below (a b : Str) (h : a ≠ [] ∨ b ≠ []) :
    ∃ q, levenshtein_similarity a b = some q ∧ 1/2 ≤ q ∧ q ≤ 1 := by
  have hmax : max a.length b.length ≠ 0 := by
    rcases h with h | h <;> simp [List.length_eq_zero] <;> intro hc <;> simp_all
  have heq : levenshtein_similarity a b =
      some (1 / (1 + (levenshtein_dist a b : ℚ) / (max a.length b.length : ℚ))) := by
    simp [levenshtein_similarity, levenshtein_dist_normalized, hmax]
  exact ⟨_, heq, levenshtein_similarity_bounds a b _ heq⟩

theorem similarity_bounded_below_witness :
    ∃ q, levenshtein_similarity (strOf "a") [] = some q ∧ 1/2 ≤ q ∧ q ≤ 1 :=
  similarity_bounded_below (strOf "a") [] (Or.inl (by decide))

theorem splitOnP_pieces {α : Type} (pr : α → Bool) (l : List α) :
    ∀ p ∈ l.splitOnP pr, ∀ y ∈ p, ¬ (pr y = true) := by
  induction l with
  | nil =>
      intro p hp y hy
      rw [List.splitOnP_nil] at hp
      simp at hp
      subst hp
      simp at hy
  | cons a tl ih =>
      intro p hp y hy
      rw [List.splitOnP_cons] at hp
      by_cases ha : pr a = true
      · rw [if_pos ha] at hp
        rcases List.mem_cons.mp hp with rfl | hp'
        · simp at hy
        · exact ih p hp' y hy
      · rw [if_neg ha] at hp
        rcases hsplit : tl.splitOnP pr with _ | ⟨h, t⟩
        · exact absurd hsplit (List.splitOnP_ne_nil pr tl)
        · rw [hsplit] at hp
          simp only [List.modifyHead] at hp
          rcases List.mem_cons.mp hp with rfl | hp'
          · rcases List.mem_cons.mp hy with rfl | hy'
            · exact ha
            · exact ih h (by rw [hsplit]; exact List.mem_cons_self _ _) y hy'
          · exact ih p (by rw [hsplit]; exact List.mem_cons_of_mem _ hp') y hy

theorem splitOn_pieces {α : Type} [DecidableEq α] (x : α) (l : List α) :
    ∀ p ∈ l.splitOn x, x ∉ p := by
  intro p hp hx
  exact splitOnP_pieces (· == x) l p hp x hx (by simp)

theorem splitOn_of_not_mem {α : Type} [DecidableEq α] (x : α) (l : List α) (h : x ∉ l) :
    l.splitOn x = [l] :=
  List.splitOnP_eq_single _ _ (fun y hy => by
    simp only [beq_iff_eq]
    intro hyx
    exact h (hyx ▸ hy))

/-- Claim C9: `task_as_vec`/`domain_as_vec` split the stored string on a comma
(else on a full-width comma) into its pieces — joining the pieces with the
delimiter restores the string and no piece contains the delimiter — falling
back to the one-element list holding the whole string when neither delimiter
occurs; in particular `"nlp,cv"` maps to `["nlp", "cv"]`. -/
theorem summary_split_fields (sum : Summary) :
    (',' ∈ sum.task_as_words →
      [','].intercalate sum.task_as_vec = sum.task_as_words ∧
      ∀ p ∈ sum.task_as_vec, ',' ∉ p) ∧
    (',' ∉ sum.task_as_words → '、' ∈ sum.task_as_words →
      ['、'].intercalate sum.task_as_vec = sum.task_as_words ∧
      ∀ p ∈ sum.task_as_vec, '、' ∉ p) ∧
    (',' ∉ sum.task_as_words → '、' ∉ sum.task_as_words →
      sum.task_as_vec = [sum.task_as_words]) ∧
    (',' ∈ sum.domain_as_words →
      [','].intercalate sum.domain_as_vec = sum.domain_as_words ∧
      ∀ p ∈ sum.domain_as_vec, ',' ∉ p) ∧
    (',' ∉ sum.domain_as_words → '、' ∈ sum.domain_as_words →
      ['、'].intercalate sum.domain_as_vec = sum.domain_as_words ∧
      ∀ p ∈ sum.domain_as_vec, '、' ∉ p) ∧
    (',' ∉ sum.domain_as_words → '、' ∉ sum.domain_as_words →
      sum.domain_as_vec = [sum.domain_as_words]) ∧
    (sum.task_as_words = strOf "nlp,cv" →
      sum.task_as_vec = [strOf "nlp", strOf "cv"]) := by
  refine ⟨?_, ?_, ?_, ?_, ?_, ?_, ?_⟩
  · intro h1
    simp only [Summary.task_as_vec, if_pos h1]
    exact ⟨by rw [List.intercalate_splitOn], splitOn_pieces ',' _⟩
  · intro h1 h2
    simp only [Summary.task_as_vec, if_neg h1, if_pos h2]
    exact ⟨by rw [List.intercalate_splitOn], splitOn_pieces '、' _⟩
  · intro h1 h2
    simp only [Summary.task_as_vec, if_neg h1, if_neg h2]
  · intro h1
    simp only [Summary.domain_as_vec, if_pos h1]
    exact ⟨by rw [List.intercalate_splitOn], splitOn_pieces ',' _⟩
  · intro h1 h2
    simp only [Summary.domain_as_vec, if_neg h1, if_pos h2]
    exact ⟨by rw [List.intercalate_splitOn], splitOn_pieces '、' _⟩
  · intro h1 h2
    simp only [Summary.domain_as_vec, if_neg h1, if_neg h2]
  · intro h1
    simp only [Summary.task_as_vec, h1]
    decide

theorem summary_split_fields_witness :
    wSum.task_as_vec = [strOf "nlp", strOf "cv"] :=
  (summary_split_fields wSum).2.2.2.2.2.2 rfl

theorem mapMO_roundtrip {α β : Type} (f : β → Option α) (g : α → β)
    (hfg : ∀ a, f (g a) = some a) (l : List α) : mapMO f (l.map g) = some l := by
  induction l with
  | nil => simp [mapMO]
  | cons a rest ih => simp [mapMO, hfg, ih]

theorem paperCache_roundtrip (p : PaperCache) : PaperCache.fromJson p.toJson = some p := by
  rcases p with ⟨t, si, pg, fr⟩
  by_cases h : fr.isEmpty
  · have hfr : fr = [] := by simpa using h
    subst hfr
    simp +decide [PaperCache.toJson, PaperCache.fromJson, jLookup, Json.asStr]
  · simp +decide [PaperCache.toJson, PaperCache.fromJson, jLookup, Json.asStr, h]

theorem authorCache_roundtrip (a : AuthorCache) : AuthorCache.fromJson a.toJson = some a := by
  simp +decide [AuthorCache.toJson, AuthorCache.fromJson, jLookup, Json.asStr]

/-- Claim C6: deserializing the serialized ledger document restores every
non-empty ledger exactly — papers, failed papers, authors and the
author-identifier map — with only the in-memory `path` field (skipped on
serialization, reassigned by `load`) excepted. -/
theorem cache_roundtrip (L : Cache) (path : Str)
    (_h : L.papers ≠ [] ∨ L.failed_papers ≠ [] ∨ L.authors ≠ [] ∨ L.author_map ≠ []) :
    Cache.fromJson path L.toJson = some { L with path := path } := by
  simp +decide only [Cache.toJson, Cache.fromJson, jLookup, Option.some_bind,
    mapMO_roundtrip PaperCache.fromJson PaperCache.toJson paperCache_roundtrip,
    mapMO_roundtrip AuthorCache.fromJson AuthorCache.toJson authorCache_roundtrip,
    mapMO_roundtrip (fun (kv : Str × Json) => kv.2.asStr.map (fun v => (kv.1, v)))
      (fun kv => (kv.1, .str kv.2)) (fun kv => by simp [Json.asStr]),
    Option.some_inj, if_true, if_false]

/-- Claim C3: contrary to the spec, on a first run (no primary ledger file on
disk) `Cache::save` FAILS — `std::fs::copy(path, org_path)?` propagates the
copy error and the primary path is never written; only when the primary file
already exists does `save` back it up and write the full ledger. -/
theorem save_backup_behavior :
    (∀ (c : Cache) (b : Option Json) (pe : Bool),
      Cache.save c { parentExists := pe, primary := none, backup := b } =
        .error .backupCopyFailed) ∧
    (∀ (c : Cache) (j : Json) (b : Option Json) (pe : Bool),
      Cache.save c { parentExists := pe, primary := some j, backup := b } =
        .ok { parentExists := true, primary := some c.toJson, backup := some j }) :=
  ⟨fun _ _ _ => rfl, fun _ _ _ _ => rfl⟩

theorem cache_roundtrip_witness :
    Cache.fromJson (strOf "c") wCache.toJson = some { wCache with path := strOf "c" } :=
  cache_roundtrip wCache (strOf "c") (Or.inl (by decide))

theorem is_exist_paper_add_self (c : Cache) (pc : PaperCache) :
    (c.add_paper pc).is_exist_paper pc.title = true := by
  simp [Cache.add_paper, Cache.is_exist_paper]

/-- Claim C5: `is_exist_paper` returns true exactly when some ledger entry's
title matches case-insensitively; a freshly appended entry is found by its
own title; `add_a_paper` on an already-ledgered title returns
`PaperAlreadyExists` with the cache, the paper and the file system untouched
and zero destination-store create calls; and after a successful persistence
the dedup check on that paper's title returns true. -/
theorem dedup_idempotent :
    (∀ (c : Cache) (t : Str),
      c.is_exist_paper t = true ↔ ∃ pc ∈ c.papers, toLowerStr pc.title = toLowerStr t) ∧
    (∀ (c : Cache) (pc : PaperCache), (c.add_paper pc).is_exist_paper pc.title = true) ∧
    (∀ (cp : Except Str Str) (uc : Except Str Unit) (paper : Paper) (c : Cache) (fs : FsState),
      c.is_exist_paper paper.title = true →
      add_a_paper cp uc paper c fs = some (.ok (.paperAlreadyExists, paper, c, fs), 0)) ∧
    (∀ (cp : Except Str Str) (uc : Except Str Unit) (paper p2 : Paper) (c c2 : Cache)
      (fs fs2 : FsState) (n : Nat),
      add_a_paper cp uc paper c fs = some (.ok (.success, p2, c2, fs2), n) →
      c2.is_exist_paper paper.title = true) := by
  refine ⟨?_, ?_, ?_, ?_⟩
  · intro c t
    simp [Cache.is_exist_paper, List.any_eq_true]
  · exact is_exist_paper_add_self
  · intro cp uc paper c fs h
    simp [add_a_paper, h]
  · intro cp uc paper p2 c c2 fs fs2 n h
    by_cases hex : c.is_exist_paper paper.title = true
    · simp [add_a_paper, hex] at h
    · simp only [add_a_paper, hex, if_false, Bool.false_eq_true] at h
      rcases hhead : paper.authors.head? with _ | first <;> simp only [hhead] at h
      · simp at h
      rcases haid : c.get_author_id first.ss_id with _ | aid <;> simp only [haid] at h
      · simp at h
      rcases cp with e | page_id <;> simp at h
      rcases uc with e | u <;> simp at h
      rcases hsave : (c.add_paper
          (PaperCache.from_paper { paper with page_id := page_id } none)).save fs
        with e | fs3 <;> simp only [hsave] at h
      · simp at h
      · have h2 := Option.some_inj.mp h
        have h3 := Except.ok.inj (congrArg Prod.fst h2)
        have hc2 := congrArg (fun x => x.2.2.1) h3
        simp only at hc2
        rw [← hc2]
        have := is_exist_paper_add_self c
          (PaperCache.from_paper { paper with page_id := page_id } none)
        simpa [PaperCache.from_paper] using this

theorem dedup_idempotent_witness :
    (wCache2.is_exist_paper (strOf "a") = true) ∧
    add_a_paper (.ok (strOf "pg")) (.ok ()) wPaper5 wCache2
        { parentExists := false, primary := none, backup := none } =
      some (.ok (.paperAlreadyExists, wPaper5, wCache2,
        { parentExists := false, primary := none, backup := none }), 0) := by
  constructor
  · exact (dedup_idempotent.1 wCache2 (strOf "a")).mpr
      ⟨{ title := strOf "A", ss_id := [], page_id := [], failed_reason := [] },
        by simp [wCache2], by decide⟩
  · exact dedup_idempotent.2.2.1 _ _ wPaper5 wCache2 _ (by decide)

theorem summarizeLoop_all_fail (chat : Nat → List Message → Except Unit Str)
    (parse : Str → Option Summary) (hfail : ∀ k msgs, chat k msgs = .error ())
    (n : Nat) : ∀ (msgs : List Message) (attempt : Nat),
    summarizeLoop chat parse msgs attempt n = (none, .errExhausted, n) := by
  induction n with
  | zero => intro msgs attempt; rfl
  | succ m ih =>
      intro msgs attempt
      rw [summarizeLoop, hfail, ih]

theorem summarizeLoop_succeeds (chat : Nat → List Message → Except Unit Str)
    (parse : Str → Option Summary) (content : Str) (sum : Summary)
    (hparse : parse content = some sum) :
    ∀ (j n attempt : Nat) (msgs : List Message), j < n →
    (∀ k m, attempt ≤ k → k < attempt + j → chat k m = .error ()) →
    (∀ m, chat (attempt + j) m = .ok content) →
    summarizeLoop chat parse msgs attempt n = (some sum, .ok, j + 1) := by
  intro j
  induction j with
  | zero =>
      intro n attempt msgs hn hfail hok
      match n, hn with
      | m + 1, _ =>
          rw [summarizeLoop]
          rw [show attempt + 0 = attempt from rfl] at hok
          rw [hok]
          simp [hparse]
  | succ i ih =>
      intro n attempt msgs hn hfail hok
      match n, hn with
      | m + 1, _ =>
          rw [summarizeLoop]
          rw [hfail attempt msgs (le_refl _) (by omega)]
          have := ih m (attempt + 1) (msgs ++ correctiveTurns) (by omega)
            (fun k mm hk1 hk2 => hfail k mm (by omega) (by omega))
            (fun mm => by rw [show attempt + 1 + i = attempt + (i + 1) from by omega]; exact hok mm)
          simp [this]

/-- Claim C2: when every chat call fails, `summarize` makes exactly 5 chat
attempts, returns the exhaustion error and leaves the record untouched; when
the endpoint first succeeds at attempt `j < 5` with a payload that decodes,
`summarize` returns success after `j + 1` calls and the record's Summary is
populated from the response. -/
theorem summarize_retry_protocol :
    (∀ (chat : Nat → List Message → Except Unit Str) (parse : Str → Option Summary)
      (instruction : Str) (paper : Paper),
      paper.original_text_map ≠ [] →
      (∀ k msgs, chat k msgs = .error ()) →
      summarize chat parse instruction paper = (.errExhausted, paper, 5)) ∧
    (∀ (chat : Nat → List Message → Except Unit Str) (parse : Str → Option Summary)
      (instruction : Str) (paper : Paper) (j : Nat) (content : Str) (sum : Summary),
      paper.original_text_map ≠ [] →
      j < 5 →
      (∀ k msgs, k < j → chat k msgs = .error ()) →
      (∀ msgs, chat j msgs = .ok content) →
      parse content = some sum →
      summarize chat parse instruction paper =
        (.ok, { paper with summary := sum }, j + 1)) := by
  constructor
  · intro chat parse instruction paper hne hfail
    rw [summarize, if_neg (by simp [hne])]
    rw [summarizeLoop_all_fail chat parse hfail 5]
  · intro chat parse instruction paper j content sum hne hj hfail hok hparse
    rw [summarize, if_neg (by simp [hne])]
    rw [summarizeLoop_succeeds chat parse content sum hparse j 5 0
      (get_messages paper instruction) hj
      (fun k m _ hk2 => hfail k m (by omega))
      (fun m => by rw [show 0 + j = j from by omega]; exact hok m)]

theorem summarize_retry_protocol_witness :
    summarize chatFail parse1 [] wPaper2 = (.errExhausted, wPaper2, 5) ∧
    summarize chat5 parse1 [] wPaper2 = (.ok, { wPaper2 with summary := wSum2 }, 5) := by
  constructor
  · exact summarize_retry_protocol.1 chatFail parse1 [] wPaper2 (by decide) (fun _ _ => rfl)
  · exact summarize_retry_protocol.2 chat5 parse1 [] wPaper2 4 (strOf "payload") wSum2
      (by decide) (by omega)
      (fun k msgs hk => by simp [chat5, hk])
      (fun msgs => by simp [chat5])
      rfl
